import Mathlib

/-!
Verification of the connection/session/forwarding core of the terminalapp
repository (Go sources: app.go, cmdrunner.go, sshconnection.go,
portfarward.go) against its natural-language specification.

The Go code is shallowly embedded: Go maps become association lists with
unique keys, `time.Time` becomes a `Nat` clock, `*ssh.Client` values become
numeric client identifiers recorded in a ledger (so that "live connection"
is observable), and fallible calls into the network/OS (dial, listen, key
parsing, file reads) become explicit boolean/sum-typed oracles passed in as
arguments.  Every definition follows the corresponding Go function
line by line; comments name the file and line of the source.
-/

set_option maxHeartbeats 1000000

/-! ### Association-list model of Go maps

Go maps have unique keys; `mapSet` replaces in place, `mapDel` deletes,
`mapGet` looks up the first (hence only) binding. -/

def mapGet {α : Type} : List (String × α) → String → Option α
  | [], _ => none
  | (k', v) :: rest, k => if k' = k then some v else mapGet rest k

def mapSet {α : Type} : List (String × α) → String → α → List (String × α)
  | [], k, v => [(k, v)]
  | (k', v') :: rest, k, v =>
      if k' = k then (k, v) :: rest else (k', v') :: mapSet rest k v

def mapDel {α : Type} : List (String × α) → String → List (String × α)
  | [], _ => []
  | (k', v') :: rest, k =>
      if k' = k then mapDel rest k else (k', v') :: mapDel rest k

/-! ### Error values

Abstract constructors for the `fmt.Errorf` values produced by the Go code. -/

inductive GoError where
  | failedToConnect (address : String)               -- sshconnection.go:45 / app.go:200
  | failedToCloseConnection                          -- sshconnection.go:64 / app.go:130
  | noActiveConnectionFor (name : String)            -- app.go:125 / cmdrunner.go:150
  | failedToCreateSession                            -- cmdrunner.go:155
  | pipeFailed (which : String)                      -- cmdrunner.go:171,176,181
  | shellFailed                                      -- cmdrunner.go:185
  | readConfigFailed                                 -- cmdrunner.go:34
  | parseConfigFailed                                -- cmdrunner.go:39
  | homeDirFailed                                    -- cmdrunner.go:46
  | keyReadFailed                                    -- cmdrunner.go:63 / app.go:180
  | keyParseFailed                                   -- cmdrunner.go:68 / app.go:185
  | parseProfileFailed                               -- app.go:157
  | invalidProfile                                   -- app.go:163
  | noAuthMethod                                     -- app.go:191
  | noActivePortForwards (profile : String)          -- portfarward.go:117
  | portForwardNotFound                              -- portfarward.go:129
  | failedToSetUpPortForwarding                      -- portfarward.go:43
deriving DecidableEq

/-! ### Connection pool model (sshconnection.go, app.go)

`SSHConnection` is the struct of sshconnection.go:10 with the `*ssh.Client`
replaced by a numeric identifier.  The `clients` ledger of `PoolWorld`
records every client ever dialed, which profile the dial was made for, and
whether `Close` was called on it — this is what makes "live transport
connection" an observable notion.  `sweeperStarted` records whether the
`go pool.cleanupIdleConnections()` goroutine of `NewSSHConnectionPool`
(sshconnection.go:27) was ever launched. -/

structure SSHConnection where
  clientId : Nat
  lastUsed : Nat
deriving DecidableEq

structure ClientRec where
  id : Nat
  dialedFor : String
  closed : Bool
deriving DecidableEq

structure PoolWorld where
  connections : List (String × SSHConnection)
  maxIdleTime : Nat
  sweeperStarted : Bool
  clients : List ClientRec
  nextClientId : Nat
  now : Nat
deriving DecidableEq

/-- NewApp (app.go:45-54): builds the pool with a struct literal
`&SSHConnectionPool{connections: make(map[...])}` — it does NOT call
`NewSSHConnectionPool`, so `maxIdleTime` is the zero value and the
`cleanupIdleConnections` goroutine is never started. -/
def newAppPool : PoolWorld :=
  { connections := [], maxIdleTime := 0, sweeperStarted := false,
    clients := [], nextClientId := 0, now := 0 }

/-- Marking a client closed (`conn.Client.Close()`, modeled as always
succeeding). -/
def closeClient (cs : List ClientRec) (id : Nat) : List ClientRec :=
  cs.map (fun c => if c.id = id then { c with closed := true } else c)

/-- The map key used by the pool: `fmt.Sprintf("%s-%s", profile, address)`
(sshconnection.go:36). -/
def poolKey (profile address : String) : String := profile ++ "-" ++ address

/-- GetConnection (sshconnection.go:32-54).  `dialOk` is the outcome of the
`ssh.Dial` call if one is attempted. -/
def GetConnection (w : PoolWorld) (profile address : String) (dialOk : Bool) :
    Except GoError Nat × PoolWorld :=
  match mapGet w.connections (poolKey profile address) with
  | some conn =>
      -- conn.LastUsed = time.Now(); return conn.Client
      (Except.ok conn.clientId,
       { w with connections :=
           mapSet w.connections (poolKey profile address) { conn with lastUsed := w.now } })
  | none =>
      if dialOk then
        -- ssh.Dial succeeded: fresh client, stored under the key
        (Except.ok w.nextClientId,
         { w with
           connections := mapSet w.connections (poolKey profile address) ⟨w.nextClientId, w.now⟩
           clients := w.clients ++ [⟨w.nextClientId, profile, false⟩]
           nextClientId := w.nextClientId + 1 })
      else (Except.error (GoError.failedToConnect address), w)

/-- CloseConnection (sshconnection.go:56-70): closes and deletes if present,
returns nil either way. -/
def CloseConnection (w : PoolWorld) (profile address : String) :
    Except GoError Unit × PoolWorld :=
  match mapGet w.connections (poolKey profile address) with
  | some conn =>
      (Except.ok (),
       { w with clients := closeClient w.clients conn.clientId,
                connections := mapDel w.connections (poolKey profile address) })
  | none => (Except.ok (), w)

/-- GetActiveConnections (app.go:138-147): the keys of the pool map. -/
def GetActiveConnections (w : PoolWorld) : List String :=
  w.connections.map Prod.fst

/-! ### Profile configuration loading (cmdrunner.go, app.go)

`SSHConfig` is the struct of app.go:27-34.  File reading and YAML parsing
are external I/O; their outcome is passed in as a `FileRead` value. -/

structure SSHConfig where
  name : String
  host : String
  port : Nat
  username : String
  password : String
  sshKeyPath : String
deriving DecidableEq

inductive FileRead where
  | notFound
  | parseFailed
  | parsed (config : SSHConfig)
deriving DecidableEq

/-- Outcome of a Go call that can also panic at runtime. -/
inductive GoOutcome (α : Type) where
  | ok (a : α)
  | fail (e : GoError)
  | crash (msg : String)
deriving DecidableEq

/-- filepath.Join for the two-argument uses in the source (approximation:
path cleaning of redundant separators is collapsed into the obvious cases,
which is exact for the inputs the code produces). -/
def filepathJoin (a b : String) : String :=
  if b = "" then a
  else if b.startsWith "/" then a ++ b
  else a ++ "/" ++ b

/-- loadSSHConfig (cmdrunner.go:30-52).  After a successful read and parse,
line 43 evaluates `config.SSHKeyPath[0]` with no length check: on an empty
`ssh_key_path` this is an out-of-bounds string index, i.e. a runtime panic.
`home` is the result of `os.UserHomeDir()`. -/
def loadSSHConfig (file : FileRead) (home : Option String) : GoOutcome SSHConfig :=
  match file with
  | FileRead.notFound => GoOutcome.fail GoError.readConfigFailed
  | FileRead.parseFailed => GoOutcome.fail GoError.parseConfigFailed
  | FileRead.parsed config =>
      match config.sshKeyPath.data with
      | [] => GoOutcome.crash "index out of range [0] with length 0"
      | c :: rest =>
          if c = '~' then
            match home with
            | none => GoOutcome.fail GoError.homeDirFailed
            | some h =>
                GoOutcome.ok { config with sshKeyPath := filepathJoin h (String.mk rest) }
          else GoOutcome.ok config

/-- The dial address built by ConnectSSHWithHostKeyCheck (app.go:195):
`fmt.Sprintf("%s:%s", profile.Host, strconv.Itoa(profile.Port))`. -/
def connectAddr (profile : SSHConfig) : String :=
  profile.host ++ ":" ++ toString profile.port

/-- ConnectSSHWithHostKeyCheck (app.go:150-221).  `parse` is the outcome of
`json.Unmarshal` of the profile JSON; `keyReadOk`/`keyParseOk` are the
outcomes of reading and parsing the key file; `dialOk` the outcome of
`ssh.Dial`.  On success the fresh client is stored under the key
`profile.Name` (line 205) — note: NOT under the `profile-address` key used
by `GetConnection`, and any previous entry under that name is overwritten
without being closed. -/
def ConnectSSHWithHostKeyCheck (w : PoolWorld) (parse : Option SSHConfig)
    (keyReadOk keyParseOk dialOk : Bool) : Except GoError Unit × PoolWorld :=
  match parse with
  | none => (Except.error GoError.parseProfileFailed, w)
  | some profile =>
      if profile.name = "" ∨ profile.host = "" ∨ profile.username = "" then
        (Except.error GoError.invalidProfile, w)
      else if profile.password ≠ "" then
        -- password authentication branch
        if dialOk then
          (Except.ok (),
           { w with
             connections := mapSet w.connections profile.name ⟨w.nextClientId, w.now⟩
             clients := w.clients ++ [⟨w.nextClientId, profile.name, false⟩]
             nextClientId := w.nextClientId + 1 })
        else (Except.error (GoError.failedToConnect (connectAddr profile)), w)
      else if profile.sshKeyPath ≠ "" then
        -- key-file authentication branch
        if ¬keyReadOk then (Except.error GoError.keyReadFailed, w)
        else if ¬keyParseOk then (Except.error GoError.keyParseFailed, w)
        else if dialOk then
          (Except.ok (),
           { w with
             connections := mapSet w.connections profile.name ⟨w.nextClientId, w.now⟩
             clients := w.clients ++ [⟨w.nextClientId, profile.name, false⟩]
             nextClientId := w.nextClientId + 1 })
        else (Except.error (GoError.failedToConnect (connectAddr profile)), w)
      else (Except.error GoError.noAuthMethod, w)

/-- getSSHClient (cmdrunner.go:55-82): loads the profile's YAML config,
reads and parses the key file, then calls `GetConnection` with the bare
profile name and the address derived from the config (the source formats
the integer port with a %s verb, which yields a malformed but still
deterministic address string; modeled as host:port). -/
def getSSHClient (w : PoolWorld) (profile : String) (file : FileRead)
    (home : Option String) (keyReadOk keyParseOk dialOk : Bool) :
    GoOutcome Nat × PoolWorld :=
  match loadSSHConfig file home with
  | GoOutcome.crash m => (GoOutcome.crash m, w)
  | GoOutcome.fail e => (GoOutcome.fail e, w)
  | GoOutcome.ok config =>
      if ¬keyReadOk then (GoOutcome.fail GoError.keyReadFailed, w)
      else if ¬keyParseOk then (GoOutcome.fail GoError.keyParseFailed, w)
      else
        match GetConnection w profile (config.host ++ ":" ++ toString config.port) dialOk with
        | (Except.ok cid, w') => (GoOutcome.ok cid, w')
        | (Except.error e, w') => (GoOutcome.fail e, w')

/-- DisconnectSSH, first variant (app.go:119-135): errors when no entry is
present for the name. -/
def DisconnectSSH_app119 (w : PoolWorld) (name : String) :
    Except GoError Unit × PoolWorld :=
  match mapGet w.connections name with
  | none => (Except.error (GoError.noActiveConnectionFor name), w)
  | some conn =>
      (Except.ok (),
       { w with clients := closeClient w.clients conn.clientId,
                connections := mapDel w.connections name })

/-- DisconnectSSH, second variant (app.go:374-387): closes and deletes when
present, returns nil either way. -/
def DisconnectSSH_app374 (w : PoolWorld) (name : String) :
    Except GoError Unit × PoolWorld :=
  match mapGet w.connections name with
  | none => (Except.ok (), w)
  | some conn =>
      (Except.ok (),
       { w with clients := closeClient w.clients conn.clientId,
                connections := mapDel w.connections name })

/-- One pass of the body of the sweep loop in cleanupIdleConnections
(sshconnection.go:76-83): every entry with `time.Since(conn.LastUsed) >
p.maxIdleTime` is closed and deleted. -/
def cleanupIdleConnections (w : PoolWorld) : PoolWorld :=
  { w with
    connections :=
      w.connections.filter (fun kv => !decide (w.maxIdleTime < w.now - kv.2.lastUsed))
    clients :=
      (w.connections.filter (fun kv => decide (w.maxIdleTime < w.now - kv.2.lastUsed))).foldl
        (fun cs kv => closeClient cs kv.2.clientId) w.clients }

/-- The clients of the ledger that were dialed for `p` and never closed:
the simultaneously live transport connections belonging to profile `p`. -/
def liveClientsFor (cs : List ClientRec) (p : String) : List ClientRec :=
  cs.filter (fun c => !c.closed && c.dialedFor == p)

/-- Every ledger record with this id carries `closed = true`. -/
def clientIsClosed (cs : List ClientRec) (id : Nat) : Prop :=
  ∀ c ∈ cs, c.id = id → c.closed = true

/-- The pool-touching transitions of the running application other than the
explicit releases (CloseConnection / DisconnectSSH): the clock advances,
connections are established (app.go:150) or acquired (sshconnection.go:32),
and — only if the `NewSSHConnectionPool` goroutine was started — a sweep
pass runs. -/
inductive PoolQuietStep : PoolWorld → PoolWorld → Prop where
  | tick (w : PoolWorld) (d : Nat) :
      PoolQuietStep w { w with now := w.now + d }
  | connect (w : PoolWorld) (parse : Option SSHConfig) (keyReadOk keyParseOk dialOk : Bool) :
      PoolQuietStep w (ConnectSSHWithHostKeyCheck w parse keyReadOk keyParseOk dialOk).2
  | acquire (w : PoolWorld) (profile address : String) (dialOk : Bool) :
      PoolQuietStep w (GetConnection w profile address dialOk).2
  | sweep (w : PoolWorld) (h : w.sweeperStarted = true) :
      PoolQuietStep w (cleanupIdleConnections w)

/-- Some sequence of release-free application steps removes key `k` from the
active-connections snapshot. -/
def evictedWithoutRelease (s : PoolWorld) (k : String) : Prop :=
  ∃ s', Relation.ReflTransGen PoolQuietStep s s' ∧ k ∉ GetActiveConnections s'

/-- The pooled entry at key `k` has been idle longer than the configured
threshold. -/
def overIdleEntry (s : PoolWorld) (k : String) : Prop :=
  ∃ conn, mapGet s.connections k = some conn ∧ s.maxIdleTime < s.now - conn.lastUsed

/-- The pool state reached from the NewApp pool after a successful
password-authenticated connect of profile "p" at time 0, once 100 time
units have passed with no further pool operation. -/
def idleScenario : PoolWorld :=
  { (ConnectSSHWithHostKeyCheck newAppPool
       (some ⟨"p", "h", 22, "u", "secret", ""⟩) true true true).2 with now := 100 }

/-- The pool state witnessing the keying mismatch: profile "p" connected via
ConnectSSHWithHostKeyCheck (stored under key "p"), then acquired via
getSSHClient (stored under key "p-h:22" after a second dial). -/
def doubleDialScenario : PoolWorld :=
  (getSSHClient
    (ConnectSSHWithHostKeyCheck newAppPool
      (some ⟨"p", "h", 22, "u", "secret", ""⟩) true true true).2
    "p" (FileRead.parsed ⟨"p", "h", 22, "u", "", "/key"⟩) none true true true).2

/-- A pool holding one connection, stored at key "k", last used at time 0
and observed at time 5 with a zero idle threshold (every positive idle age
exceeds it). -/
def staleScenario : PoolWorld :=
  ⟨[("k", ⟨0, 0⟩)], 0, false, [⟨0, "p", false⟩], 1, 5⟩

/-- A pool holding one connection for profile "p" at address "a" (stored
under the GetConnection key "p-a"). -/
def presentPool : PoolWorld :=
  ⟨[("p-a", ⟨0, 3⟩)], 0, false, [⟨0, "p", false⟩], 1, 5⟩

/-! ### Interactive command execution (cmdrunner.go)

The two stdout/stderr reader goroutines and the main task are sequentialized
into an event trace: the interleaving of the two readers' emissions is an
arbitrary schedule (`sched`), and everything the main task emits after
`session.Wait()` and the two `<-outputDone` receives comes after all reader
events.  Remote behavior (session/pipe/shell failures, the chunks each
reader obtains before end-of-stream, the exit status) is an explicit input.
The write into the just-created stdin pipe (cmdrunner.go:192) is modeled as
always succeeding; all modeled failure points precede the launch of the
reader goroutines, as in the source. -/

structure OutputEvent where
  profile : String
  type : String
  data : String
deriving DecidableEq

inductive ExitOutcome where
  | success
  | exitError (code : Nat)
  | otherFailure
deriving DecidableEq

structure RemoteBehavior where
  sessionOk : Bool
  stdinPipeOk : Bool
  stdoutPipeOk : Bool
  stderrPipeOk : Bool
  shellOk : Bool
  stdoutReads : List String
  stderrReads : List String
  exit : ExitOutcome
  sched : List Bool
deriving DecidableEq

structure SessionState where
  ctxSet : Bool
  poolKeys : List String
  activeSessions : List (String × Nat)
  nextSessionId : Nat
deriving DecidableEq

structure ExecResult where
  result : Except GoError Unit
  events : List OutputEvent
  state : SessionState
  sessionsOpened : Nat

def dropLeadingWhitespace : List Char → List Char
  | [] => []
  | c :: rest => if c.isWhitespace then dropLeadingWhitespace rest else c :: rest

/-- `strings.TrimSpace(strings.ToLower(command))` (cmdrunner.go:139),
character-list based (exact for the ASCII commands involved). -/
def goTrimLower (s : String) : String :=
  String.mk
    (dropLeadingWhitespace
      ((dropLeadingWhitespace (s.data.map Char.toLower).reverse).reverse))

/-- emitOutput (cmdrunner.go:89-106): emits one event when the context is
set, otherwise only prints a warning and emits nothing. -/
def emitOutput (ctxSet : Bool) (profile ty data : String) : List OutputEvent :=
  if ctxSet then [⟨profile, ty, data⟩] else []

/-- handleOutput (cmdrunner.go:217-233): each read with `n > 0` is emitted
via emitOutput; the loop ends at end-of-stream. -/
def handleOutputEvents (ctxSet : Bool) (profile ty : String) :
    List String → List OutputEvent
  | [] => []
  | chunk :: rest =>
      (if 0 < chunk.length then emitOutput ctxSet profile ty chunk else []) ++
        handleOutputEvents ctxSet profile ty rest

/-- An arbitrary interleaving of the two reader goroutines' emissions,
preserving the order within each stream: the schedule picks which reader
emits next, and an exhausted reader (or schedule) lets the other drain. -/
def interleave : List Bool → List OutputEvent → List OutputEvent → List OutputEvent
  | [], xs, ys => xs ++ ys
  | b :: s, xs, ys =>
      if b then
        match xs with
        | [] => ys
        | x :: xs' => x :: interleave s xs' ys
      else
        match ys with
        | [] => xs
        | y :: ys' => y :: interleave s xs ys'

/-- ExecuteInteractiveCommand (cmdrunner.go:137-215).  The "clear" check
(line 139) precedes everything; the pool is consulted under the BARE
profile name (line 146); the new session is registered in activeSessions,
replacing any existing entry, with no busy check (lines 158-160); the
deferred cleanup (lines 162-167) deletes the entry on every return after
registration; after `session.Wait()` and both reader completions, exactly
one terminal event is emitted (lines 204-212). -/
def ExecuteInteractiveCommand (st : SessionState) (env : RemoteBehavior)
    (profile command : String) : ExecResult :=
  if goTrimLower command = "clear" then
    ⟨Except.ok (), emitOutput st.ctxSet profile "clear" "", st, 0⟩
  else if profile ∈ st.poolKeys then
    if env.sessionOk then
      if env.stdinPipeOk then
        if env.stdoutPipeOk then
          if env.stderrPipeOk then
            if env.shellOk then
              ⟨Except.ok (),
               interleave env.sched
                   (handleOutputEvents st.ctxSet profile "stdout" env.stdoutReads)
                   (handleOutputEvents st.ctxSet profile "stderr" env.stderrReads) ++
                 (match env.exit with
                  | ExitOutcome.success =>
                      emitOutput st.ctxSet profile "info" "Command finished successfully"
                  | ExitOutcome.exitError code =>
                      emitOutput st.ctxSet profile "error"
                        ("Command exited with code " ++ toString code)
                  | ExitOutcome.otherFailure =>
                      emitOutput st.ctxSet profile "error" "Command failed"),
               { st with activeSessions := mapDel st.activeSessions profile,
                         nextSessionId := st.nextSessionId + 1 },
               1⟩
            else ⟨Except.error GoError.shellFailed, [],
                  { st with activeSessions := mapDel st.activeSessions profile,
                            nextSessionId := st.nextSessionId + 1 }, 1⟩
          else ⟨Except.error (GoError.pipeFailed "stderr"), [],
                { st with activeSessions := mapDel st.activeSessions profile,
                          nextSessionId := st.nextSessionId + 1 }, 1⟩
        else ⟨Except.error (GoError.pipeFailed "stdout"), [],
              { st with activeSessions := mapDel st.activeSessions profile,
                        nextSessionId := st.nextSessionId + 1 }, 1⟩
      else ⟨Except.error (GoError.pipeFailed "stdin"), [],
            { st with activeSessions := mapDel st.activeSessions profile,
                      nextSessionId := st.nextSessionId + 1 }, 1⟩
    else ⟨Except.error GoError.failedToCreateSession, [], st, 0⟩
  else ⟨Except.error (GoError.noActiveConnectionFor profile), [], st, 0⟩

/-- A state in which profile "p" has a pooled connection and a running
session (session id 0). -/
def busySessionState : SessionState :=
  ⟨true, ["p"], [("p", 0)], 1⟩

/-- A fully successful remote behavior with some output on both streams and
a non-zero exit code. -/
def happyFailingRemote : RemoteBehavior :=
  ⟨true, true, true, true, true, ["out1", "out2"], ["err1"], ExitOutcome.exitError 2,
   [true, false, true]⟩

/-- A state in which profile "p" has a pooled connection and no running
session. -/
def readySessionState : SessionState :=
  ⟨true, ["p"], [], 0⟩

/-! ### Port forwarding (portfarward.go)

`boundLocalPorts` is the set of local TCP ports with a live listener (the
OS refuses a second `net.Listen` on a bound port); `boundRemotePorts` the
per-profile remote listen ports (the SSH server refuses a second
tcpip-forward on a bound port).  The accept loop of `handlePortForward`
closes its listener after an accept error, and `StopPortForward` never
closes the listener (the TODO at portfarward.go:124).  A LOCAL listener
(`net.Listen`) therefore stays bound forever: nothing in the program closes
it, so its accept loop never errors.  A REMOTE listener, however, lives on
the profile's `ssh.Client`: when that client is closed (disconnect), the
listener's Accept fails, `handlePortForward` returns, the deferred
`listener.Close()` runs, and the remote port is freed — while the registry
entry survives, since nothing cleans `activeForwards` on disconnect. -/

structure PortForward where
  localPort : Nat
  remotePort : Nat
  isRemoteToLocal : Bool
deriving DecidableEq

structure FwdWorld where
  poolProfiles : List String
  activeForwards : List (String × List PortForward)
  boundLocalPorts : List Nat
  boundRemotePorts : List (String × Nat)
deriving DecidableEq

/-- PortForward (portfarward.go:22-59).  The connection-pool lookup uses
the bare profile name; the listen attempt is refused exactly when the port
is already bound; on success the entry is appended to the profile's slice
(`activeForwards[profile] = append(...)`, which starts from the empty slice
when the key is missing) and the accept loop is started. -/
def PortForwardOp (w : FwdWorld) (profile : String) (localPort remotePort : Nat)
    (isRemoteToLocal : Bool) : Except GoError Unit × FwdWorld :=
  if profile ∈ w.poolProfiles then
    if isRemoteToLocal then
      if (profile, remotePort) ∈ w.boundRemotePorts then
        (Except.error GoError.failedToSetUpPortForwarding, w)
      else
        (Except.ok (),
         { w with
           boundRemotePorts := (profile, remotePort) :: w.boundRemotePorts
           activeForwards :=
             mapSet w.activeForwards profile
               (((mapGet w.activeForwards profile).getD []) ++
                 [⟨localPort, remotePort, isRemoteToLocal⟩]) })
    else
      if localPort ∈ w.boundLocalPorts then
        (Except.error GoError.failedToSetUpPortForwarding, w)
      else
        (Except.ok (),
         { w with
           boundLocalPorts := localPort :: w.boundLocalPorts
           activeForwards :=
             mapSet w.activeForwards profile
               (((mapGet w.activeForwards profile).getD []) ++
                 [⟨localPort, remotePort, isRemoteToLocal⟩]) })
  else (Except.error (GoError.noActiveConnectionFor profile), w)

/-- Removal of the first slice element matching the
(localPort, remotePort, direction) triple, as in the loop of
StopPortForward (portfarward.go:120-127); `none` when no element
matches. -/
def removeFirstMatch (localPort remotePort : Nat) (dir : Bool) :
    List PortForward → Option (List PortForward)
  | [] => none
  | f :: rest =>
      if f.localPort = localPort ∧ f.remotePort = remotePort ∧ f.isRemoteToLocal = dir then
        some rest
      else
        match removeFirstMatch localPort remotePort dir rest with
        | some rest' => some (f :: rest')
        | none => none

/-- StopPortForward (portfarward.go:111-130): errors when the profile has
no forwards or no entry matches; otherwise removes the matching entry from
the registry and returns nil.  The listener is NOT closed (the TODO at
line 124), so the bound-port sets are untouched. -/
def StopPortForward (w : FwdWorld) (profile : String) (localPort remotePort : Nat)
    (isRemoteToLocal : Bool) : Except GoError Unit × FwdWorld :=
  match mapGet w.activeForwards profile with
  | none => (Except.error (GoError.noActivePortForwards profile), w)
  | some fs =>
      match removeFirstMatch localPort remotePort isRemoteToLocal fs with
      | some fs' =>
          (Except.ok (), { w with activeForwards := mapSet w.activeForwards profile fs' })
      | none => (Except.error GoError.portForwardNotFound, w)

/-- GetActivePortForwards (portfarward.go:132-142). -/
def GetActivePortForwards (w : FwdWorld) (profile : String) : List PortForward :=
  (mapGet w.activeForwards profile).getD []

/-- A TCP connection attempt to a local port succeeds exactly when a
listener is bound to it and its accept loop is running. -/
def localConnectionAccepted (w : FwdWorld) (port : Nat) : Bool :=
  port ∈ w.boundLocalPorts

/-- Effect of establishing a connection for profile `p` on the forwarding
subsystem: the profile becomes available in the pool. -/
def connectFwd (w : FwdWorld) (p : String) : FwdWorld :=
  { w with poolProfiles := p :: w.poolProfiles }

/-- Effect of DisconnectSSH on the forwarding subsystem: the profile leaves
the pool, and closing its `ssh.Client` kills every remote listener of that
profile (Accept fails, `handlePortForward` returns, the deferred
`listener.Close()` runs), freeing the remote ports.  Local listeners are
plain `net.Listen` sockets and are unaffected; the `activeForwards`
registry is untouched — nothing cleans it on disconnect. -/
def disconnectFwd (w : FwdWorld) (p : String) : FwdWorld :=
  { w with poolProfiles := w.poolProfiles.erase p,
           boundRemotePorts := w.boundRemotePorts.filter (fun pr => pr.1 ≠ p) }

/-- The transitions of the forwarding subsystem: starting and stopping
forwards, plus the environment connecting and disconnecting pooled
profiles. -/
inductive FwdStep : FwdWorld → FwdWorld → Prop where
  | start (w : FwdWorld) (profile : String) (localPort remotePort : Nat) (dir : Bool) :
      FwdStep w (PortForwardOp w profile localPort remotePort dir).2
  | stop (w : FwdWorld) (profile : String) (localPort remotePort : Nat) (dir : Bool) :
      FwdStep w (StopPortForward w profile localPort remotePort dir).2
  | connectProfile (w : FwdWorld) (p : String) :
      FwdStep w (connectFwd w p)
  | disconnectProfile (w : FwdWorld) (p : String) :
      FwdStep w (disconnectFwd w p)

/-- Reachability of the forwarding subsystem from the freshly started
application (no profiles, no forwards, no bound ports). -/
def FwdReachable (w : FwdWorld) : Prop :=
  Relation.ReflTransGen FwdStep ⟨[], [], [], []⟩ w

/-- Two forward entries collide when they agree on local port, remote port
and direction (the profile component of the tuple is the registry key). -/
def sameTuple (f g : PortForward) : Prop :=
  f.localPort = g.localPort ∧ f.remotePort = g.remotePort ∧
    f.isRemoteToLocal = g.isRemoteToLocal

/-- No two active entries of any profile collide on the
(profile, localPort, remotePort, direction) tuple. -/
def NoDupTuples (w : FwdWorld) : Prop :=
  ∀ p fs, mapGet w.activeForwards p = some fs →
    fs.Pairwise (fun f g => ¬sameTuple f g)

/-- Every registered local→remote forward's local port is still bound
(local listeners are never closed by any transition of the program). -/
def LocalPortsBound (w : FwdWorld) : Prop :=
  ∀ p fs, mapGet w.activeForwards p = some fs → ∀ f ∈ fs,
    f.isRemoteToLocal = false → f.localPort ∈ w.boundLocalPorts

/-- No two active entries of any profile collide on a local→remote tuple
(for a colliding pair both entries have the same direction, so one
local-direction hypothesis suffices). -/
def NoDupLocalTuples (w : FwdWorld) : Prop :=
  ∀ p fs, mapGet w.activeForwards p = some fs →
    fs.Pairwise (fun f g => f.isRemoteToLocal = false → ¬sameTuple f g)

/-- The forwarding state after connecting profile "p" and starting a
local→remote forward (8090, 9090). -/
def fwdScenario : FwdWorld :=
  (PortForwardOp ⟨["p"], [], [], []⟩ "p" 8090 9090 false).2

/-- The forwarding state after connecting profile "p" and starting a
remote→local forward (8090, 9090). -/
def remoteFwdScenario : FwdWorld :=
  (PortForwardOp (connectFwd ⟨[], [], [], []⟩ "p") "p" 8090 9090 true).2

/-- The forwarding state reached by the trace connect p → remote→local
forward (8090, 9090) → DisconnectSSH p (remote listener dies, registry
entry survives) → reconnect p → identical remote→local forward (8090,
9090), which the now-free remote port lets succeed. -/
def dupScenario : FwdWorld :=
  (PortForwardOp (connectFwd (disconnectFwd remoteFwdScenario "p") "p")
    "p" 8090 9090 true).2

/-! ## Theorems -/

/-- Helper lemmas about the association-list map model. -/
theorem mapGet_mapSet_self {α : Type} (m : List (String × α)) (k : String) (v : α) :
    mapGet (mapSet m k v) k = some v := by
  induction m with
  | nil => simp [mapSet, mapGet]
  | cons hd tl ih =>
      obtain ⟨k', v'⟩ := hd
      by_cases h : k' = k
      · simp [mapSet, mapGet, h]
      · simp [mapSet, mapGet, h, ih]

theorem mapGet_mapDel_self {α : Type} (m : List (String × α)) (k : String) :
    mapGet (mapDel m k) k = none := by
  induction m with
  | nil => simp [mapDel, mapGet]
  | cons hd tl ih =>
      obtain ⟨k', v'⟩ := hd
      by_cases h : k' = k
      · simp [mapDel, h, ih]
      · simp [mapDel, mapGet, h, ih]

theorem keys_mapSet_of_mem {α : Type} (m : List (String × α)) (k : String) (v₀ v : α)
    (h : mapGet m k = some v₀) :
    (mapSet m k v).map Prod.fst = m.map Prod.fst := by
  induction m with
  | nil => simp [mapGet] at h
  | cons hd tl ih =>
      obtain ⟨k0, v0⟩ := hd
      by_cases h0 : k0 = k
      · simp [mapSet, h0]
      · simp only [mapGet, if_neg h0] at h
        simp [mapSet, h0, ih h]

theorem mem_keys_mapSet {α : Type} (m : List (String × α)) (k k' : String) (v : α)
    (h : k ∈ m.map Prod.fst) : k ∈ (mapSet m k' v).map Prod.fst := by
  induction m with
  | nil => simp at h
  | cons hd tl ih =>
      obtain ⟨k0, v0⟩ := hd
      by_cases h0 : k0 = k'
      · subst h0
        simp only [mapSet, if_pos rfl, List.map_cons]
        simpa using h
      · simp only [mapSet, if_neg h0, List.map_cons, List.mem_cons] at h ⊢
        rcases h with h | h
        · exact Or.inl h
        · exact Or.inr (ih h)

/-- Claim C1: for every pool state, once `GetConnection` has returned a
connection for (profile, address), calling `GetConnection` again with the
same profile and address returns the very same client identity, dials no new
connection (the client ledger and the fresh-id counter are unchanged), and
leaves the set of pooled keys unchanged. -/
theorem C1_acquire_twice_same_connection
    (w : PoolWorld) (profile address : String) (d1 : Bool) (c1 : Nat) (w1 : PoolWorld)
    (h : GetConnection w profile address d1 = (Except.ok c1, w1)) (d2 : Bool) :
    (GetConnection w1 profile address d2).1 = Except.ok c1 ∧
    (GetConnection w1 profile address d2).2.clients = w1.clients ∧
    (GetConnection w1 profile address d2).2.nextClientId = w1.nextClientId ∧
    GetActiveConnections (GetConnection w1 profile address d2).2 =
      GetActiveConnections w1 := by
  have hkey : mapGet w1.connections (poolKey profile address) =
      some ⟨c1, w.now⟩ := by
    unfold GetConnection at h
    rcases hm : mapGet w.connections (poolKey profile address) with _ | conn
    · rw [hm] at h
      rcases d1 with _ | _
      · simp at h
      · simp only [if_pos, Prod.mk.injEq, Except.ok.injEq] at h
        obtain ⟨h1, h2⟩ := h
        rw [← h2]
        simp [mapGet_mapSet_self, h1]
    · rw [hm] at h
      simp only [Prod.mk.injEq, Except.ok.injEq] at h
      obtain ⟨h1, h2⟩ := h
      rw [← h2]
      simp [mapGet_mapSet_self, h1]
  unfold GetConnection
  rw [hkey]
  refine ⟨rfl, rfl, rfl, ?_⟩
  exact keys_mapSet_of_mem w1.connections (poolKey profile address) _ _ hkey

/-- Concrete instantiation of C1: a fresh pool, one successful dial, then a
second acquire. -/
theorem C1_witness :
    (GetConnection (GetConnection newAppPool "p" "h:22" true).2 "p" "h:22" false).1 =
      Except.ok 0 ∧
    (GetConnection (GetConnection newAppPool "p" "h:22" true).2 "p" "h:22" false).2.clients =
      (GetConnection newAppPool "p" "h:22" true).2.clients ∧
    (GetConnection (GetConnection newAppPool "p" "h:22" true).2 "p" "h:22" false).2.nextClientId =
      (GetConnection newAppPool "p" "h:22" true).2.nextClientId ∧
    GetActiveConnections (GetConnection (GetConnection newAppPool "p" "h:22" true).2 "p" "h:22" false).2 =
      GetActiveConnections (GetConnection newAppPool "p" "h:22" true).2 :=
  C1_acquire_twice_same_connection newAppPool "p" "h:22" true 0
    (GetConnection newAppPool "p" "h:22" true).2 rfl false

/-- Claim C4: the spec's invariant "at most one live pooled connection per
profile key" is violated by the code: `ConnectSSHWithHostKeyCheck` stores
under the bare profile name while `GetConnection` (via `getSSHClient`)
stores under the `profile-address` key, so connecting profile "p" and then
acquiring it dials a second transport — two simultaneously live connections
for profile "p", pooled under two distinct keys. -/
theorem C4_two_live_connections_for_one_profile :
    (liveClientsFor doubleDialScenario.clients "p").length = 2 ∧
    GetActiveConnections doubleDialScenario = ["p", "p-h:22"] :=
  ⟨rfl, rfl⟩

/-- Claim C10: refuted by the code as written — on a config whose
`ssh_key_path` is the empty string, the tilde-expansion step of
`loadSSHConfig` evaluates `config.SSHKeyPath[0]` and panics with an
out-of-bounds index instead of returning a config value or an error. -/
theorem C10_loadSSHConfig_crashes_on_empty_key_path :
    loadSSHConfig (FileRead.parsed ⟨"p", "h", 22, "u", "", ""⟩) (some "/home/u") =
      GoOutcome.crash "index out of range [0] with length 0" :=
  rfl

/-- Claim C2, counterexample: with a session already registered for profile
"p" (session id 0), `ExecuteInteractiveCommand` does not fail with any
busy error — it returns nil and opens a second session. -/
theorem C2_counterexample_busy_key_not_rejected :
    mapGet busySessionState.activeSessions "p" = some 0 ∧
    (ExecuteInteractiveCommand busySessionState happyFailingRemote "p" "ls").result =
      Except.ok () ∧
    (ExecuteInteractiveCommand busySessionState happyFailingRemote "p" "ls").sessionsOpened =
      1 :=
  ⟨rfl, rfl, rfl⟩

/-- Claim C3, counterexample: stopping the registered forward
(p, 8090, 9090, local→remote) removes it from the registry and returns nil,
but the listener on local port 8090 is not closed (the TODO at
portfarward.go:124), so a subsequent connection attempt to the bound local
port still succeeds. -/
theorem C3_counterexample_listener_not_closed :
    (StopPortForward fwdScenario "p" 8090 9090 false).1 = Except.ok () ∧
    GetActivePortForwards (StopPortForward fwdScenario "p" 8090 9090 false).2 "p" = [] ∧
    localConnectionAccepted (StopPortForward fwdScenario "p" 8090 9090 false).2 8090 =
      true :=
  ⟨rfl, rfl, rfl⟩

/-- Claim C8, counterexample: the `DisconnectSSH` variant at app.go:119
is not idempotent — called on a pool with no entry for the key it returns
an error instead of nil. -/
theorem C8_counterexample_disconnect_errors_when_absent :
    (DisconnectSSH_app119 newAppPool "p").1 =
      Except.error (GoError.noActiveConnectionFor "p") ∧
    (DisconnectSSH_app119 newAppPool "p").2 = newAppPool :=
  ⟨rfl, rfl⟩

theorem closeClient_closes (cs : List ClientRec) (id : Nat) :
    clientIsClosed (closeClient cs id) id := by
  intro c hc hid
  simp only [closeClient, List.mem_map] at hc
  obtain ⟨c0, _, hc0⟩ := hc
  by_cases h : c0.id = id
  · rw [← hc0]
    simp [h]
  · rw [if_neg h] at hc0
    rw [← hc0] at hid
    exact absurd hid h

theorem closeClient_preserves (cs : List ClientRec) (id id' : Nat)
    (h : clientIsClosed cs id) : clientIsClosed (closeClient cs id') id := by
  intro c hc hid
  simp only [closeClient, List.mem_map] at hc
  obtain ⟨c0, hm0, hc0⟩ := hc
  by_cases h' : c0.id = id'
  · rw [← hc0]
    simp [h']
  · rw [if_neg h'] at hc0
    rw [← hc0] at hid ⊢
    exact h c0 hm0 hid

theorem foldl_closeClient_preserves (L : List (String × SSHConnection))
    (cs : List ClientRec) (id : Nat) (h : clientIsClosed cs id) :
    clientIsClosed
      (L.foldl (fun a kv => closeClient a kv.2.clientId) cs) id := by
  induction L generalizing cs with
  | nil => exact h
  | cons hd tl ih =>
      exact ih (closeClient cs hd.2.clientId) (closeClient_preserves cs id hd.2.clientId h)

theorem foldl_closeClient_closes (L : List (String × SSHConnection))
    (cs : List ClientRec) (kv : String × SSHConnection) (hkv : kv ∈ L) :
    clientIsClosed
      (L.foldl (fun a kv => closeClient a kv.2.clientId) cs) kv.2.clientId := by
  obtain ⟨s, t, rfl⟩ := List.append_of_mem hkv
  rw [List.foldl_append, List.foldl_cons]
  exact foldl_closeClient_preserves t _ _ (closeClient_closes _ _)

theorem mapGet_mem {α : Type} (m : List (String × α)) (k : String) (v : α)
    (h : mapGet m k = some v) : (k, v) ∈ m := by
  induction m with
  | nil => simp [mapGet] at h
  | cons hd tl ih =>
      obtain ⟨k0, v0⟩ := hd
      by_cases h0 : k0 = k
      · simp only [mapGet, if_pos h0, Option.some.injEq] at h
        subst h0; subst h
        exact List.mem_cons_self _ _
      · simp only [mapGet, if_neg h0] at h
        exact List.mem_cons_of_mem _ (ih h)

theorem mapGet_eq_of_mem_nodup {α : Type} (m : List (String × α)) (k : String) (v : α)
    (hnd : (m.map Prod.fst).Nodup) (hm : (k, v) ∈ m) : mapGet m k = some v := by
  induction m with
  | nil => simp at hm
  | cons hd tl ih =>
      obtain ⟨k0, v0⟩ := hd
      simp only [List.map_cons, List.nodup_cons] at hnd
      rcases List.mem_cons.1 hm with h | h
      · rw [← h]
        simp [mapGet]
      · have hk : k0 ≠ k := by
          intro he
          exact hnd.1 (he ▸ (List.mem_map.2 ⟨(k, v), h, rfl⟩))
        simp only [mapGet, if_neg hk]
        exact ih hnd.2 h

/-- Claim C8 (amended): the pool's `CloseConnection` and the `DisconnectSSH`
variant at app.go:374 are idempotent releases — when no entry exists for
the key they return nil and leave the pool unchanged, and when an entry
exists they close its client and remove the entry; the `DisconnectSSH`
variant at app.go:119, however, returns a no-active-connection error when
the key is absent. -/
theorem C8_release_idempotent_except_app119 (w : PoolWorld)
    (profile address name : String) :
    (mapGet w.connections (poolKey profile address) = none →
      CloseConnection w profile address = (Except.ok (), w)) ∧
    (∀ conn, mapGet w.connections (poolKey profile address) = some conn →
      (CloseConnection w profile address).1 = Except.ok () ∧
      mapGet (CloseConnection w profile address).2.connections (poolKey profile address) =
        none ∧
      clientIsClosed (CloseConnection w profile address).2.clients conn.clientId) ∧
    (mapGet w.connections name = none →
      DisconnectSSH_app374 w name = (Except.ok (), w)) ∧
    (∀ conn, mapGet w.connections name = some conn →
      (DisconnectSSH_app374 w name).1 = Except.ok () ∧
      mapGet (DisconnectSSH_app374 w name).2.connections name = none ∧
      clientIsClosed (DisconnectSSH_app374 w name).2.clients conn.clientId) ∧
    (mapGet w.connections name = none →
      (DisconnectSSH_app119 w name).1 =
        Except.error (GoError.noActiveConnectionFor name)) := by
  refine ⟨?_, ?_, ?_, ?_, ?_⟩
  · intro h
    unfold CloseConnection
    rw [h]
  · intro conn h
    unfold CloseConnection
    rw [h]
    exact ⟨rfl, mapGet_mapDel_self _ _, closeClient_closes _ _⟩
  · intro h
    unfold DisconnectSSH_app374
    rw [h]
  · intro conn h
    unfold DisconnectSSH_app374
    rw [h]
    exact ⟨rfl, mapGet_mapDel_self _ _, closeClient_closes _ _⟩
  · intro h
    unfold DisconnectSSH_app119
    rw [h]

/-- Concrete instantiation of C8 (amended): releasing an absent key returns
nil and leaves the pool unchanged; releasing a present key closes and
removes it. -/
theorem C8_witness :
    CloseConnection newAppPool "p" "a" = (Except.ok (), newAppPool) ∧
    (CloseConnection presentPool "p" "a").1 = Except.ok () ∧
    mapGet (CloseConnection presentPool "p" "a").2.connections (poolKey "p" "a") = none ∧
    clientIsClosed (CloseConnection presentPool "p" "a").2.clients 0 ∧
    DisconnectSSH_app374 newAppPool "p" = (Except.ok (), newAppPool) :=
  ⟨(C8_release_idempotent_except_app119 newAppPool "p" "a" "p").1 rfl,
   ((C8_release_idempotent_except_app119 presentPool "p" "a" "p").2.1 ⟨0, 3⟩ rfl).1,
   ((C8_release_idempotent_except_app119 presentPool "p" "a" "p").2.1 ⟨0, 3⟩ rfl).2.1,
   ((C8_release_idempotent_except_app119 presentPool "p" "a" "p").2.1 ⟨0, 3⟩ rfl).2.2,
   (C8_release_idempotent_except_app119 newAppPool "p" "a" "p").2.2.1 rfl⟩

theorem connect_sweeperStarted (w : PoolWorld) (parse : Option SSHConfig)
    (keyReadOk keyParseOk dialOk : Bool) :
    (ConnectSSHWithHostKeyCheck w parse keyReadOk keyParseOk dialOk).2.sweeperStarted =
      w.sweeperStarted := by
  unfold ConnectSSHWithHostKeyCheck
  rcases parse with _ | profile
  · rfl
  · dsimp only
    split_ifs <;> rfl

theorem connect_mem_active (w : PoolWorld) (parse : Option SSHConfig)
    (keyReadOk keyParseOk dialOk : Bool) (k : String)
    (hk : k ∈ GetActiveConnections w) :
    k ∈ GetActiveConnections
        (ConnectSSHWithHostKeyCheck w parse keyReadOk keyParseOk dialOk).2 := by
  unfold ConnectSSHWithHostKeyCheck
  rcases parse with _ | profile
  · exact hk
  · dsimp only
    split_ifs <;>
      first
        | exact hk
        | exact mem_keys_mapSet w.connections k profile.name _ hk

theorem acquire_sweeperStarted (w : PoolWorld) (profile address : String) (dialOk : Bool) :
    (GetConnection w profile address dialOk).2.sweeperStarted = w.sweeperStarted := by
  unfold GetConnection
  rcases hm : mapGet w.connections (poolKey profile address) with _ | conn
  · dsimp only
    split_ifs <;> rfl
  · rfl

theorem acquire_mem_active (w : PoolWorld) (profile address : String) (dialOk : Bool)
    (k : String) (hk : k ∈ GetActiveConnections w) :
    k ∈ GetActiveConnections (GetConnection w profile address dialOk).2 := by
  unfold GetConnection
  rcases hm : mapGet w.connections (poolKey profile address) with _ | conn
  · dsimp only
    split_ifs
    · exact mem_keys_mapSet w.connections k (poolKey profile address) _ hk
    · exact hk
  · exact mem_keys_mapSet w.connections k (poolKey profile address) _ hk

theorem quiet_step_invariant (w w' : PoolWorld) (k : String)
    (hstep : PoolQuietStep w w') (hsw : w.sweeperStarted = false)
    (hk : k ∈ GetActiveConnections w) :
    w'.sweeperStarted = false ∧ k ∈ GetActiveConnections w' := by
  cases hstep with
  | tick d => exact ⟨hsw, hk⟩
  | connect parse a b c =>
      exact ⟨(connect_sweeperStarted w parse a b c).trans hsw,
             connect_mem_active w parse a b c k hk⟩
  | acquire profile address dialOk =>
      exact ⟨(acquire_sweeperStarted w profile address dialOk).trans hsw,
             acquire_mem_active w profile address dialOk k hk⟩
  | sweep h => exact absurd (hsw ▸ h) (by simp)

theorem quiet_reach_invariant (s s' : PoolWorld) (k : String)
    (hreach : Relation.ReflTransGen PoolQuietStep s s')
    (hsw : s.sweeperStarted = false) (hk : k ∈ GetActiveConnections s) :
    s'.sweeperStarted = false ∧ k ∈ GetActiveConnections s' := by
  induction hreach with
  | refl => exact ⟨hsw, hk⟩
  | tail _ hstep ih =>
      exact quiet_step_invariant _ _ k hstep ih.1 ih.2

/-- Claim C7, counterexample: in the application as wired by NewApp
(app.go:45 builds the pool without `NewSSHConnectionPool`, so no sweep
goroutine exists and the idle threshold is the zero value), the connection
of profile "p" has been idle past the threshold for 100 time units, yet no
sequence of release-free steps ever removes it from the
active-connections snapshot — the claimed sweep eviction never happens. -/
theorem C7_counterexample_idle_never_evicted :
    overIdleEntry idleScenario "p" ∧ ¬evictedWithoutRelease idleScenario "p" := by
  constructor
  · exact ⟨⟨0, 0⟩, rfl, by decide⟩
  · rintro ⟨s', hreach, hnot⟩
    exact hnot (quiet_reach_invariant idleScenario s' "p" hreach rfl (by decide)).2

/-- Claim C7 (amended): one pass of `cleanupIdleConnections` does close and
remove every pooled connection whose idle age exceeds the threshold, so it
no longer appears in the active-connections snapshot — but this sweep only
ever runs for pools built by `NewSSHConnectionPool`; the App's pool from
NewApp (app.go:45) never starts it, so its idle connections persist until
an explicit release. -/
theorem C7_sweep_pass_evicts_idle (w : PoolWorld) (key : String) (conn : SSHConnection)
    (hnd : (w.connections.map Prod.fst).Nodup)
    (h : mapGet w.connections key = some conn)
    (hidle : w.maxIdleTime < w.now - conn.lastUsed) :
    key ∉ GetActiveConnections (cleanupIdleConnections w) ∧
    clientIsClosed (cleanupIdleConnections w).clients conn.clientId := by
  constructor
  · intro hmem
    simp only [GetActiveConnections, cleanupIdleConnections, List.mem_map] at hmem
    obtain ⟨kv, hkv, hfst⟩ := hmem
    have hkvm := List.mem_of_mem_filter hkv
    have hkeep := List.of_mem_filter hkv
    obtain ⟨k0, v0⟩ := kv
    simp only at hfst
    subst hfst
    have hv : v0 = conn := by
      have hget := mapGet_eq_of_mem_nodup w.connections k0 v0 hnd hkvm
      rw [h] at hget
      injection hget with hh
      exact hh.symm
    subst hv
    simp only [Bool.not_eq_true', decide_eq_false_iff_not] at hkeep
    exact hkeep hidle
  · have hmem : (key, conn) ∈
        w.connections.filter (fun kv => decide (w.maxIdleTime < w.now - kv.2.lastUsed)) :=
      List.mem_filter.2 ⟨mapGet_mem w.connections key conn h, by simpa using hidle⟩
    exact foldl_closeClient_closes _ w.clients (key, conn) hmem

/-- Concrete instantiation of C7 (amended): a sweep pass over a pool whose
single connection has idle age 5 against threshold 0 removes and closes
it. -/
theorem C7_witness :
    "k" ∉ GetActiveConnections (cleanupIdleConnections staleScenario) ∧
    clientIsClosed (cleanupIdleConnections staleScenario).clients 0 :=
  C7_sweep_pass_evicts_idle staleScenario "k" ⟨0, 0⟩ (by decide) rfl (by decide)

/-- Claim C2 (amended): a new `ExecuteInteractiveCommand` on a profile key
whose session registry already holds a running session is NOT rejected —
there is no busy check and no busy error: the call proceeds, opens a second
session sub-channel over the pooled connection (silently replacing the
registry entry for the key), and on completion the deferred cleanup deletes
the key's entry altogether. -/
theorem C2_execute_on_busy_key_replaces_session (st : SessionState)
    (env : RemoteBehavior) (profile command : String) (s0 : Nat)
    (hcmd : goTrimLower command ≠ "clear")
    (hpool : profile ∈ st.poolKeys)
    (hbusy : mapGet st.activeSessions profile = some s0)
    (hsess : env.sessionOk = true) (hstdin : env.stdinPipeOk = true)
    (hstdout : env.stdoutPipeOk = true) (hstderr : env.stderrPipeOk = true)
    (hshell : env.shellOk = true) :
    (ExecuteInteractiveCommand st env profile command).result = Except.ok () ∧
    (ExecuteInteractiveCommand st env profile command).sessionsOpened = 1 ∧
    mapGet (ExecuteInteractiveCommand st env profile command).state.activeSessions
      profile = none := by
  unfold ExecuteInteractiveCommand
  rw [if_neg hcmd, if_pos hpool, hsess, hstdin, hstdout, hstderr, hshell]
  exact ⟨rfl, rfl, mapGet_mapDel_self st.activeSessions profile⟩

/-- Concrete instantiation of C2 (amended): profile "p" is busy with
session 0 and a new command is executed anyway. -/
theorem C2_witness :
    (ExecuteInteractiveCommand busySessionState happyFailingRemote "p" "ls").result =
      Except.ok () ∧
    (ExecuteInteractiveCommand busySessionState happyFailingRemote "p" "ls").sessionsOpened =
      1 ∧
    mapGet (ExecuteInteractiveCommand busySessionState
      happyFailingRemote "p" "ls").state.activeSessions "p" = none :=
  C2_execute_on_busy_key_replaces_session busySessionState happyFailingRemote "p" "ls" 0
    (by decide) (by decide) rfl rfl rfl rfl rfl rfl

/-- Claim C5: executing `clear` (after the source's lower-casing and
trimming) is intercepted before any remote dispatch: no session sub-channel
is opened, the session registry and pool are untouched, and exactly one
`clear`-tagged event with empty data is emitted. -/
theorem C5_clear_is_local_single_event (st : SessionState) (env : RemoteBehavior)
    (profile command : String)
    (hcmd : goTrimLower command = "clear") (hctx : st.ctxSet = true) :
    ExecuteInteractiveCommand st env profile command =
      ⟨Except.ok (), [⟨profile, "clear", ""⟩], st, 0⟩ := by
  unfold ExecuteInteractiveCommand
  rw [if_pos hcmd]
  unfold emitOutput
  rw [hctx]
  simp only [if_true]

/-- Concrete instantiation of C5: the literal command "clear" on an
initialized app. -/
theorem C5_witness :
    ExecuteInteractiveCommand readySessionState happyFailingRemote "p" "clear" =
      ⟨Except.ok (), [⟨"p", "clear", ""⟩], readySessionState, 0⟩ :=
  C5_clear_is_local_single_event readySessionState happyFailingRemote "p" "clear"
    (by decide) rfl

theorem mem_handleOutputEvents (ctxSet : Bool) (profile ty : String)
    (reads : List String) (e : OutputEvent)
    (h : e ∈ handleOutputEvents ctxSet profile ty reads) :
    e.profile = profile ∧ e.type = ty := by
  induction reads with
  | nil => simp [handleOutputEvents] at h
  | cons c rest ih =>
      simp only [handleOutputEvents, List.mem_append] at h
      rcases h with h | h
      · rcases hlen : decide (0 < c.length) with _ | _
        · rw [if_neg (by simpa using hlen)] at h
          simp at h
        · rw [if_pos (by simpa using hlen)] at h
          unfold emitOutput at h
          rcases ctxSet with _ | _
          · simp at h
          · simp only [if_true, List.mem_singleton] at h
            subst h
            exact ⟨rfl, rfl⟩
      · exact ih h

theorem mem_interleave (s : List Bool) (xs ys : List OutputEvent) (e : OutputEvent)
    (h : e ∈ interleave s xs ys) : e ∈ xs ∨ e ∈ ys := by
  induction s generalizing xs ys with
  | nil =>
      simp only [interleave, List.mem_append] at h
      exact h
  | cons b rest ih =>
      unfold interleave at h
      rcases b with _ | _
      · simp only [Bool.false_eq_true, if_false] at h
        rcases ys with _ | ⟨y, ys'⟩
        · exact Or.inl h
        · rcases List.mem_cons.1 h with h | h
          · exact Or.inr (List.mem_cons.2 (Or.inl h))
          · rcases ih xs ys' h with h' | h'
            · exact Or.inl h'
            · exact Or.inr (List.mem_cons.2 (Or.inr h'))
      · simp only [if_true] at h
        rcases xs with _ | ⟨x, xs'⟩
        · exact Or.inr h
        · rcases List.mem_cons.1 h with h | h
          · exact Or.inl (List.mem_cons.2 (Or.inl h))
          · rcases ih xs' ys h with h' | h'
            · exact Or.inl (List.mem_cons.2 (Or.inr h'))
            · exact Or.inr h'

theorem filter_no_error_eq_nil (l : List OutputEvent)
    (h : ∀ e ∈ l, (e.type == "error") = false) :
    l.filter (fun e => e.type == "error") = [] := by
  induction l with
  | nil => rfl
  | cons x xs ih =>
      rw [List.filter_cons, h x (List.mem_cons_self x xs)]
      simp only [Bool.false_eq_true, if_false]
      exact ih (fun e he => h e (List.mem_cons_of_mem x he))

/-- Claim C6: for an invocation whose remote process exits with a non-zero
code (and whose streams drain to end-of-stream), the event trace is some
interleaving of stdout/stderr events followed by a single terminal
error-tagged event carrying the exit code — the error event comes after
every stdout and stderr event (both readers are drained first, matching the
two `<-outputDone` receives before the emit), it is the only error-tagged
event of the invocation, the call returns nil, and the session entry for
the profile key is removed so the key is free for reuse. -/
theorem C6_nonzero_exit_terminal_error (st : SessionState) (env : RemoteBehavior)
    (profile command : String) (code : Nat)
    (hcmd : goTrimLower command ≠ "clear") (hpool : profile ∈ st.poolKeys)
    (hctx : st.ctxSet = true) (hsess : env.sessionOk = true)
    (hstdin : env.stdinPipeOk = true) (hstdout : env.stdoutPipeOk = true)
    (hstderr : env.stderrPipeOk = true) (hshell : env.shellOk = true)
    (hexit : env.exit = ExitOutcome.exitError code) (hcode : code ≠ 0) :
    ∃ pre,
      (ExecuteInteractiveCommand st env profile command).events =
        pre ++ [⟨profile, "error", "Command exited with code " ++ toString code⟩] ∧
      (∀ e ∈ pre, e.type = "stdout" ∨ e.type = "stderr") ∧
      ((pre ++ [⟨profile, "error", "Command exited with code " ++ toString code⟩]).filter
          (fun e => e.type == "error")).length = 1 ∧
      mapGet (ExecuteInteractiveCommand st env profile command).state.activeSessions
        profile = none ∧
      (ExecuteInteractiveCommand st env profile command).result = Except.ok () := by
  unfold ExecuteInteractiveCommand
  rw [if_neg hcmd, if_pos hpool, hsess, hstdin, hstdout, hstderr, hshell, hexit, hctx]
  refine ⟨interleave env.sched (handleOutputEvents true profile "stdout" env.stdoutReads)
      (handleOutputEvents true profile "stderr" env.stderrReads), rfl, ?_, ?_,
      mapGet_mapDel_self st.activeSessions profile, rfl⟩
  · intro e he
    rcases mem_interleave _ _ _ e he with h | h
    · exact Or.inl (mem_handleOutputEvents true profile "stdout" env.stdoutReads e h).2
    · exact Or.inr (mem_handleOutputEvents true profile "stderr" env.stderrReads e h).2
  · have hpre : ∀ e ∈ interleave env.sched
        (handleOutputEvents true profile "stdout" env.stdoutReads)
        (handleOutputEvents true profile "stderr" env.stderrReads),
        (e.type == "error") = false := by
      intro e he
      rcases mem_interleave _ _ _ e he with h | h
      · rw [(mem_handleOutputEvents true profile "stdout" env.stdoutReads e h).2]
        rfl
      · rw [(mem_handleOutputEvents true profile "stderr" env.stderrReads e h).2]
        rfl
    rw [List.filter_append, filter_no_error_eq_nil _ hpre]
    rfl

/-- Concrete instantiation of C6: a command on profile "p" producing two
stdout chunks and one stderr chunk, exiting with code 2. -/
theorem C6_witness :
    ∃ pre,
      (ExecuteInteractiveCommand readySessionState happyFailingRemote "p" "ls").events =
        pre ++ [⟨"p", "error", "Command exited with code " ++ toString 2⟩] ∧
      (∀ e ∈ pre, e.type = "stdout" ∨ e.type = "stderr") ∧
      ((pre ++ [⟨"p", "error", "Command exited with code " ++ toString 2⟩]).filter
          (fun e => e.type == "error")).length = 1 ∧
      mapGet (ExecuteInteractiveCommand readySessionState
        happyFailingRemote "p" "ls").state.activeSessions "p" = none ∧
      (ExecuteInteractiveCommand readySessionState happyFailingRemote "p" "ls").result =
        Except.ok () :=
  C6_nonzero_exit_terminal_error readySessionState happyFailingRemote "p" "ls" 2
    (by decide) (by decide) rfl rfl rfl rfl rfl rfl rfl (by decide)

/-- Claim C3 (amended): calling stop with a matching
(profile, localPort, remotePort, direction) tuple removes that entry from
the `GetActivePortForwards` snapshot and returns nil, and calling it with
no matching entry fails with an error — but the listener is NOT closed
(`// TODO: Implement actual stopping` at portfarward.go:124): the bound
ports are untouched and subsequent connection attempts to the bound local
port still succeed. -/
theorem C3_stop_removes_entry_keeps_listener (w : FwdWorld) (profile : String)
    (localPort remotePort : Nat) (dir : Bool) :
    (mapGet w.activeForwards profile = none →
      StopPortForward w profile localPort remotePort dir =
        (Except.error (GoError.noActivePortForwards profile), w)) ∧
    (∀ fs, mapGet w.activeForwards profile = some fs →
      (removeFirstMatch localPort remotePort dir fs = none →
        StopPortForward w profile localPort remotePort dir =
          (Except.error GoError.portForwardNotFound, w)) ∧
      (∀ fs', removeFirstMatch localPort remotePort dir fs = some fs' →
        (StopPortForward w profile localPort remotePort dir).1 = Except.ok () ∧
        GetActivePortForwards (StopPortForward w profile localPort remotePort dir).2
          profile = fs' ∧
        (StopPortForward w profile localPort remotePort dir).2.boundLocalPorts =
          w.boundLocalPorts ∧
        (StopPortForward w profile localPort remotePort dir).2.boundRemotePorts =
          w.boundRemotePorts)) := by
  constructor
  · intro h
    unfold StopPortForward
    rw [h]
  · intro fs hfs
    constructor
    · intro hrm
      unfold StopPortForward
      rw [hfs]
      dsimp only
      rw [hrm]
    · intro fs' hrm
      unfold StopPortForward
      rw [hfs]
      dsimp only
      rw [hrm]
      refine ⟨rfl, ?_, rfl, rfl⟩
      unfold GetActivePortForwards
      rw [mapGet_mapSet_self]
      rfl

/-- Concrete instantiation of C3 (amended): stopping the (8090, 9090,
local→remote) forward of profile "p" removes the entry, keeps port 8090
bound, and stopping a non-matching tuple errors. -/
theorem C3_witness :
    (StopPortForward fwdScenario "p" 8090 9090 false).1 = Except.ok () ∧
    GetActivePortForwards (StopPortForward fwdScenario "p" 8090 9090 false).2 "p" = [] ∧
    (StopPortForward fwdScenario "p" 8090 9090 false).2.boundLocalPorts =
      fwdScenario.boundLocalPorts ∧
    StopPortForward fwdScenario "p" 7070 9090 false =
      (Except.error GoError.portForwardNotFound, fwdScenario) :=
  ⟨(((C3_stop_removes_entry_keeps_listener fwdScenario "p" 8090 9090 false).2
      [⟨8090, 9090, false⟩] rfl).2 [] rfl).1,
   (((C3_stop_removes_entry_keeps_listener fwdScenario "p" 8090 9090 false).2
      [⟨8090, 9090, false⟩] rfl).2 [] rfl).2.1,
   (((C3_stop_removes_entry_keeps_listener fwdScenario "p" 8090 9090 false).2
      [⟨8090, 9090, false⟩] rfl).2 [] rfl).2.2.1,
   ((C3_stop_removes_entry_keeps_listener fwdScenario "p" 7070 9090 false).2
      [⟨8090, 9090, false⟩] rfl).1 rfl⟩

theorem mapGet_mapSet_ne {α : Type} (m : List (String × α)) (k k' : String) (v : α)
    (h : k' ≠ k) : mapGet (mapSet m k v) k' = mapGet m k' := by
  induction m with
  | nil =>
      simp only [mapSet, mapGet]
      rw [if_neg (fun he => h he.symm)]
  | cons hd tl ih =>
      obtain ⟨k0, v0⟩ := hd
      by_cases h0 : k0 = k
      · subst h0
        simp only [mapSet, if_pos rfl, mapGet]
        rw [if_neg (fun he => h he.symm), if_neg (fun he => h he.symm)]
      · simp only [mapSet, if_neg h0, mapGet]
        by_cases h1 : k0 = k'
        · rw [if_pos h1, if_pos h1]
        · rw [if_neg h1, if_neg h1]
          exact ih

theorem removeFirstMatch_sublist (localPort remotePort : Nat) (dir : Bool)
    (fs fs' : List PortForward)
    (h : removeFirstMatch localPort remotePort dir fs = some fs') : fs'.Sublist fs := by
  induction fs generalizing fs' with
  | nil => simp [removeFirstMatch] at h
  | cons f rest ih =>
      unfold removeFirstMatch at h
      by_cases hf : f.localPort = localPort ∧ f.remotePort = remotePort ∧
          f.isRemoteToLocal = dir
      · rw [if_pos hf] at h
        injection h with h
        subst h
        exact List.sublist_cons_self f rest
      · rw [if_neg hf] at h
        rcases hr : removeFirstMatch localPort remotePort dir rest with _ | rest'
        · rw [hr] at h
          simp at h
        · rw [hr] at h
          injection h with h
          subst h
          exact List.Sublist.cons₂ f (ih rest' hr)


theorem fwdstep_preserves (w w' : FwdWorld) (hstep : FwdStep w w')
    (hbnd : LocalPortsBound w) (hnd : NoDupLocalTuples w) :
    LocalPortsBound w' ∧ NoDupLocalTuples w' := by
  cases hstep with
  | connectProfile p => exact ⟨hbnd, hnd⟩
  | disconnectProfile p => exact ⟨hbnd, hnd⟩
  | stop profile localPort remotePort dir =>
      unfold StopPortForward
      rcases hm : mapGet w.activeForwards profile with _ | fs
      · exact ⟨hbnd, hnd⟩
      · dsimp only
        rcases hrm : removeFirstMatch localPort remotePort dir fs with _ | fs'
        · exact ⟨hbnd, hnd⟩
        · have hsub := removeFirstMatch_sublist localPort remotePort dir fs fs' hrm
          constructor
          · intro p gs hgs g hg
            by_cases hp : p = profile
            · subst hp
              rw [mapGet_mapSet_self] at hgs
              injection hgs with hgs
              subst hgs
              exact hbnd p fs hm g (hsub.subset hg)
            · rw [mapGet_mapSet_ne _ _ _ _ hp] at hgs
              exact hbnd p gs hgs g hg
          · intro p gs hgs
            by_cases hp : p = profile
            · subst hp
              rw [mapGet_mapSet_self] at hgs
              injection hgs with hgs
              subst hgs
              exact (hnd p fs hm).sublist hsub
            · rw [mapGet_mapSet_ne _ _ _ _ hp] at hgs
              exact hnd p gs hgs
  | start profile localPort remotePort dir =>
      unfold PortForwardOp
      by_cases hp : profile ∈ w.poolProfiles
      · rw [if_pos hp]
        cases dir with
        | true =>
            rw [if_pos rfl]
            by_cases hb : (profile, remotePort) ∈ w.boundRemotePorts
            · rw [if_pos hb]
              exact ⟨hbnd, hnd⟩
            · rw [if_neg hb]
              constructor
              · intro p gs hgs g hg hgl
                by_cases hpp : p = profile
                · subst hpp
                  rw [mapGet_mapSet_self] at hgs
                  injection hgs with hgs
                  subst hgs
                  rcases List.mem_append.1 hg with hg | hg
                  · rcases hm : mapGet w.activeForwards p with _ | old
                    · rw [hm] at hg
                      simp at hg
                    · rw [hm] at hg
                      exact hbnd p old hm g (by simpa using hg) hgl
                  · have hgeq : g = ⟨localPort, remotePort, true⟩ := by simpa using hg
                    subst hgeq
                    simp at hgl
                · rw [mapGet_mapSet_ne _ _ _ _ hpp] at hgs
                  exact hbnd p gs hgs g hg hgl
              · intro p gs hgs
                by_cases hpp : p = profile
                · subst hpp
                  rw [mapGet_mapSet_self] at hgs
                  injection hgs with hgs
                  subst hgs
                  rw [List.pairwise_append]
                  refine ⟨?_, by simp, ?_⟩
                  · rcases hm : mapGet w.activeForwards p with _ | old
                    · simp
                    · simpa using hnd p old hm
                  · intro f hf g hg hfl hsame
                    have hgeq : g = ⟨localPort, remotePort, true⟩ := by simpa using hg
                    subst hgeq
                    have hdir : f.isRemoteToLocal = true := by simpa using hsame.2.2
                    rw [hfl] at hdir
                    simp at hdir
                · rw [mapGet_mapSet_ne _ _ _ _ hpp] at hgs
                  exact hnd p gs hgs
        | false =>
            rw [if_neg (by decide)]
            by_cases hb : localPort ∈ w.boundLocalPorts
            · rw [if_pos hb]
              exact ⟨hbnd, hnd⟩
            · rw [if_neg hb]
              constructor
              · intro p gs hgs g hg hgl
                by_cases hpp : p = profile
                · subst hpp
                  rw [mapGet_mapSet_self] at hgs
                  injection hgs with hgs
                  subst hgs
                  rcases List.mem_append.1 hg with hg | hg
                  · rcases hm : mapGet w.activeForwards p with _ | old
                    · rw [hm] at hg
                      simp at hg
                    · rw [hm] at hg
                      exact List.mem_cons_of_mem _
                        (hbnd p old hm g (by simpa using hg) hgl)
                  · have hgeq : g = ⟨localPort, remotePort, false⟩ := by simpa using hg
                    subst hgeq
                    exact List.mem_cons_self _ _
                · rw [mapGet_mapSet_ne _ _ _ _ hpp] at hgs
                  exact List.mem_cons_of_mem _ (hbnd p gs hgs g hg hgl)
              · intro p gs hgs
                by_cases hpp : p = profile
                · subst hpp
                  rw [mapGet_mapSet_self] at hgs
                  injection hgs with hgs
                  subst hgs
                  rw [List.pairwise_append]
                  refine ⟨?_, by simp, ?_⟩
                  · rcases hm : mapGet w.activeForwards p with _ | old
                    · simp
                    · simpa using hnd p old hm
                  · intro f hf g hg hfl hsame
                    have hgeq : g = ⟨localPort, remotePort, false⟩ := by simpa using hg
                    subst hgeq
                    rcases hm : mapGet w.activeForwards p with _ | old
                    · rw [hm] at hf
                      simp at hf
                    · rw [hm] at hf
                      have hlp : f.localPort ∈ w.boundLocalPorts :=
                        hbnd p old hm f (by simpa using hf) hfl
                      have hs1 : f.localPort = localPort := by simpa using hsame.1
                      rw [hs1] at hlp
                      exact hb hlp
                · rw [mapGet_mapSet_ne _ _ _ _ hpp] at hgs
                  exact hnd p gs hgs
      · rw [if_neg hp]
        exact ⟨hbnd, hnd⟩

theorem fwd_reach_invariant (w : FwdWorld) (h : FwdReachable w) :
    LocalPortsBound w ∧ NoDupLocalTuples w := by
  induction h with
  | refl =>
      constructor <;> intro p fs hfs <;> simp [mapGet] at hfs
  | tail _ hstep ih => exact fwdstep_preserves _ _ hstep ih.1 ih.2

/-- Claim C9, counterexample: the trace connect p → remote→local forward
(8090, 9090) → DisconnectSSH p → reconnect p → identical remote→local
forward reaches a state of the program in which the second start with the
tuple already listed for p was accepted (nil, registered), and the registry
holds two entries colliding on the (p, 8090, 9090, remote→local) tuple —
the disconnect killed the remote listener and freed the remote port while
the registry entry survived, so the re-registration was not rejected. -/
theorem C9_counterexample_duplicate_after_reconnect :
    FwdReachable dupScenario ∧
    (PortForwardOp (connectFwd (disconnectFwd remoteFwdScenario "p") "p")
        "p" 8090 9090 true).1 = Except.ok () ∧
    GetActivePortForwards dupScenario "p" =
      [⟨8090, 9090, true⟩, ⟨8090, 9090, true⟩] ∧
    ¬NoDupTuples dupScenario := by
  refine ⟨?_, rfl, rfl, ?_⟩
  · exact Relation.ReflTransGen.tail
      (Relation.ReflTransGen.tail
        (Relation.ReflTransGen.tail
          (Relation.ReflTransGen.tail
            (Relation.ReflTransGen.tail Relation.ReflTransGen.refl
              (FwdStep.connectProfile ⟨[], [], [], []⟩ "p"))
            (FwdStep.start (connectFwd ⟨[], [], [], []⟩ "p") "p" 8090 9090 true))
          (FwdStep.disconnectProfile remoteFwdScenario "p"))
        (FwdStep.connectProfile (disconnectFwd remoteFwdScenario "p") "p"))
      (FwdStep.start (connectFwd (disconnectFwd remoteFwdScenario "p") "p")
        "p" 8090 9090 true)
  · intro hnd
    have h := hnd "p" [⟨8090, 9090, true⟩, ⟨8090, 9090, true⟩] rfl
    rcases List.pairwise_cons.1 h with ⟨h1, _⟩
    exact h1 ⟨8090, 9090, true⟩ (List.mem_cons_self _ _) ⟨rfl, rfl, rfl⟩

/-- Claim C9 (amended): for local→remote forwards the invariant holds in
every reachable state — no two active entries collide on a local→remote
tuple, and starting a second forward with a tuple identical to an active
local→remote entry is rejected (an error, nothing registered), because the
local listener of the existing entry is never closed and keeps its port
bound.  For remote→local forwards the invariant fails: disconnecting the
profile closes its transport, which kills the remote listener and frees the
remote port while the registry entry survives, so after a reconnect an
identical remote→local tuple is accepted and registered as a colliding
duplicate. -/
theorem C9_local_tuple_collision_rejected (w : FwdWorld) (hw : FwdReachable w)
    (profile : String) (localPort remotePort : Nat) :
    NoDupLocalTuples w ∧
    (∀ f ∈ GetActivePortForwards w profile, sameTuple f ⟨localPort, remotePort, false⟩ →
      (∃ e, (PortForwardOp w profile localPort remotePort false).1 = Except.error e) ∧
      (PortForwardOp w profile localPort remotePort false).2 = w) := by
  obtain ⟨hbnd, hnd⟩ := fwd_reach_invariant w hw
  refine ⟨hnd, ?_⟩
  intro f hf hsame
  unfold GetActivePortForwards at hf
  rcases hm : mapGet w.activeForwards profile with _ | fs
  · rw [hm] at hf
    simp at hf
  · rw [hm] at hf
    obtain ⟨hs1, hs2, hs3⟩ := hsame
    unfold PortForwardOp
    by_cases hp : profile ∈ w.poolProfiles
    · rw [if_pos hp, if_neg (by decide)]
      have hbound : localPort ∈ w.boundLocalPorts := by
        have := hbnd profile fs hm f (by simpa using hf) (by simpa using hs3)
        rwa [hs1] at this
      rw [if_pos hbound]
      exact ⟨⟨GoError.failedToSetUpPortForwarding, rfl⟩, rfl⟩
    · rw [if_neg hp]
      exact ⟨⟨GoError.noActiveConnectionFor profile, rfl⟩, rfl⟩

/-- Concrete instantiation of C9 (amended): the reachable state with the
active local→remote forward (p, 8090, 9090) holds no colliding local→remote
tuples and rejects an identical second start. -/
theorem C9_witness :
    NoDupLocalTuples fwdScenario ∧
    ((∃ e, (PortForwardOp fwdScenario "p" 8090 9090 false).1 = Except.error e) ∧
      (PortForwardOp fwdScenario "p" 8090 9090 false).2 = fwdScenario) := by
  have hreach : FwdReachable fwdScenario :=
    Relation.ReflTransGen.tail
      (Relation.ReflTransGen.tail Relation.ReflTransGen.refl
        (FwdStep.connectProfile ⟨[], [], [], []⟩ "p"))
      (FwdStep.start ⟨["p"], [], [], []⟩ "p" 8090 9090 false)
  have h := C9_local_tuple_collision_rejected fwdScenario hreach "p" 8090 9090
  exact ⟨h.1, h.2 ⟨8090, 9090, false⟩ (by decide) ⟨rfl, rfl, rfl⟩⟩
